import Mathlib

/-!
Shallow embedding of `extract_wheels/__init__.py` and `src/entry_points.py`
of rules_python_external, with theorems settling the spec's claims about
the environment configurator, the package fetcher, the entry-point
installer and the build-rule text generators.
-/

namespace ExtractWheels

/-! ### Process environment

`configure_reproducible_wheels` touches exactly three variables of
`os.environ`; the embedding keeps each as an `Option String` (absent /
present with a value) and carries the untouched rest of the environment
as `otherVars`. -/

structure Env where
  CFLAGS : Option String
  SOURCE_DATE_EPOCH : Option String
  PYTHONHASHSEED : Option String
  otherVars : List (String × String)
deriving DecidableEq, Repr

/-- Embedding of `configure_reproducible_wheels` (extract_wheels/__init__.py,
lines 17-40): append `" -g0"` to `CFLAGS` (create it as `"-g0"` when absent),
set `SOURCE_DATE_EPOCH` to `"315532800"` only when unset, set
`PYTHONHASHSEED` to `"0"` only when unset. -/
def configure_reproducible_wheels (e : Env) : Env :=
  let e1 : Env :=
    { e with CFLAGS := some (match e.CFLAGS with
        | some v => v ++ " -g0"
        | none => "-g0") }
  let e2 : Env :=
    if e1.SOURCE_DATE_EPOCH = none then
      { e1 with SOURCE_DATE_EPOCH := some "315532800" }
    else e1
  if e2.PYTHONHASHSEED = none then
    { e2 with PYTHONHASHSEED := some "0" }
  else e2

/-- An environment in which all three variables are unset. -/
def emptyEnv : Env :=
  { CFLAGS := none, SOURCE_DATE_EPOCH := none, PYTHONHASHSEED := none,
    otherVars := [] }

/-- C1 `counterexample`: the configurator is not idempotent.  Starting from
an environment with no `CFLAGS`, one run leaves `CFLAGS = "-g0"` while a
second run appends the flag again, leaving `CFLAGS = "-g0 -g0"`, so the
environment after two runs differs from the environment after one. -/
theorem configure_reproducible_wheels_not_idempotent :
    configure_reproducible_wheels (configure_reproducible_wheels emptyEnv) ≠
      configure_reproducible_wheels emptyEnv ∧
    (configure_reproducible_wheels emptyEnv).CFLAGS = some "-g0" ∧
    (configure_reproducible_wheels
      (configure_reproducible_wheels emptyEnv)).CFLAGS = some "-g0 -g0" := by
  refine ⟨?_, rfl, rfl⟩
  intro h
  have := congrArg Env.CFLAGS h
  simp [configure_reproducible_wheels, emptyEnv] at this

/-- C1 `theorem` (amended): the configurator is idempotent on the
reproducibility timestamp variable, the hash-seed variable and the rest of
the environment — a second run leaves all of them exactly as the first run
did — but not on the compiler-flags variable: the second run appends the
debug-symbol-suppression flag `" -g0"` once more to the value the first run
produced. -/
theorem configure_reproducible_wheels_second_run (e : Env) :
    (configure_reproducible_wheels (configure_reproducible_wheels e)).SOURCE_DATE_EPOCH =
      (configure_reproducible_wheels e).SOURCE_DATE_EPOCH ∧
    (configure_reproducible_wheels (configure_reproducible_wheels e)).PYTHONHASHSEED =
      (configure_reproducible_wheels e).PYTHONHASHSEED ∧
    (configure_reproducible_wheels (configure_reproducible_wheels e)).otherVars =
      (configure_reproducible_wheels e).otherVars ∧
    ∃ v, (configure_reproducible_wheels e).CFLAGS = some v ∧
      (configure_reproducible_wheels (configure_reproducible_wheels e)).CFLAGS =
        some (v ++ " -g0") := by
  obtain ⟨c, s, p, o⟩ := e
  cases c <;> cases s <;> cases p <;>
    simp [configure_reproducible_wheels]

/-- C8 `theorem`: after one run, `SOURCE_DATE_EPOCH` holds its pre-existing
value when it had one and the fixed epoch `"315532800"` otherwise;
`PYTHONHASHSEED` holds its pre-existing value when it had one and `"0"`
otherwise; `CFLAGS` always ends up set, with `" -g0"` appended to a
pre-existing value and equal to `"-g0"` when it was absent; the rest of the
environment is untouched. -/
theorem configure_reproducible_wheels_effects (e : Env) :
    (configure_reproducible_wheels e).SOURCE_DATE_EPOCH =
      some (e.SOURCE_DATE_EPOCH.getD "315532800") ∧
    (configure_reproducible_wheels e).PYTHONHASHSEED =
      some (e.PYTHONHASHSEED.getD "0") ∧
    (configure_reproducible_wheels e).CFLAGS =
      some (match e.CFLAGS with
        | some v => v ++ " -g0"
        | none => "-g0") ∧
    (configure_reproducible_wheels e).otherVars = e.otherVars := by
  obtain ⟨c, s, p, o⟩ := e
  cases c <;> cases s <;> cases p <;>
    simp [configure_reproducible_wheels]

/-! ### Requirements and the parallel fetch

A parsed requirement (pip's `Requirement` as `_dl_wheel` uses it) is a name
together with a version-specifier string.  A fetch subprocess is summarised,
like Python's `subprocess.CompletedProcess`, by its argument list and its
exit code; the exit codes of the world outside are an oracle
`Requirement → Int`. -/

structure Requirement where
  name : String
  specifier : String
deriving DecidableEq, Repr

structure CompletedProcess where
  args : List String
  returncode : Int
deriving DecidableEq, Repr

/-- The command `_dl_wheel` builds (extract_wheels/__init__.py, lines 44-50):
`[sys.executable, "-m", "pip", "wheel", "--no-deps"] + additional_wheel_opts
+ [req.name + req.specifier]`. -/
def dl_wheel_cmd (pyexe : String) (req : Requirement)
    (additional_wheel_opts : List String) : List String :=
  [pyexe, "-m", "pip", "wheel", "--no-deps"] ++ additional_wheel_opts ++
    [req.name ++ req.specifier]

/-- `_dl_wheel` itself: run the command and return the completed process,
whose exit code the oracle supplies. -/
def dl_wheel (pyexe : String) (exitCodes : Requirement → Int)
    (req : Requirement) (additional_wheel_opts : List String) :
    CompletedProcess :=
  { args := dl_wheel_cmd pyexe req additional_wheel_opts,
    returncode := exitCodes req }

/-- Python's `str.split()` with no argument: split on whitespace and drop
empty tokens. -/
def pySplit (s : String) : List String :=
  (s.split (fun c => c.isWhitespace)).filter (fun t => t ≠ "")

/-- Python's `s.startswith(pre)`: the prefix test on the underlying
character sequences. -/
def pyStartsWith (s pre : String) : Bool :=
  decide (pre.data <+: s.data)

/-- The option-accumulation loop of `_fetch_packages_parallel`
(extract_wheels/__init__.py, lines 63-66): every line of the requirements
file that starts with `"--"` is space-split and its tokens appended to the
accumulated option list. -/
def wheel_cmd_opts (requirements_txt_lines : List String) : List String :=
  requirements_txt_lines.foldl
    (fun acc l => if pyStartsWith l "--" then acc ++ pySplit l else acc) []

/-- The `completed_procs` of `_fetch_packages_parallel` (lines 70-75): one
`_dl_wheel` subprocess per parsed requirement, each given the same
accumulated option list. -/
def completed_procs (pyexe : String) (requirements_txt_lines : List String)
    (parsed_reqs : List Requirement) (exitCodes : Requirement → Int) :
    List CompletedProcess :=
  parsed_reqs.map
    (fun r => dl_wheel pyexe exitCodes r (wheel_cmd_opts requirements_txt_lines))

/-- The `failed_procs` of `_fetch_packages_parallel` (line 76): the completed
processes whose exit code is non-zero. -/
def failed_procs (pyexe : String) (requirements_txt_lines : List String)
    (parsed_reqs : List Requirement) (exitCodes : Requirement → Int) :
    List CompletedProcess :=
  (completed_procs pyexe requirements_txt_lines parsed_reqs exitCodes).filter
    (fun proc => proc.returncode != 0)

/-- `_fetch_packages_parallel` (lines 54-79): run every per-requirement
fetch, and raise `RuntimeError(failed_procs)` exactly when some fetch
returned a non-zero exit code. -/
def fetch_packages_parallel (pyexe : String)
    (requirements_txt_lines : List String) (parsed_reqs : List Requirement)
    (exitCodes : Requirement → Int) : Except (List CompletedProcess) Unit :=
  if failed_procs pyexe requirements_txt_lines parsed_reqs exitCodes = [] then
    Except.ok ()
  else
    Except.error (failed_procs pyexe requirements_txt_lines parsed_reqs exitCodes)

lemma mem_failed_procs (pyexe : String) (lines : List String)
    (reqs : List Requirement) (exitCodes : Requirement → Int)
    (p : CompletedProcess) :
    p ∈ failed_procs pyexe lines reqs exitCodes ↔
      (∃ r ∈ reqs, p = dl_wheel pyexe exitCodes r (wheel_cmd_opts lines)) ∧
        p.returncode ≠ 0 := by
  simp only [failed_procs, completed_procs, List.mem_filter, List.mem_map,
    bne_iff_ne, ne_eq, decide_not]
  constructor
  · rintro ⟨⟨r, hr, rfl⟩, h⟩
    exact ⟨⟨r, hr, rfl⟩, by simpa using h⟩
  · rintro ⟨⟨r, hr, rfl⟩, h⟩
    exact ⟨⟨r, hr, rfl⟩, by simpa using h⟩

lemma failed_procs_eq_nil_iff (pyexe : String) (lines : List String)
    (reqs : List Requirement) (exitCodes : Requirement → Int) :
    failed_procs pyexe lines reqs exitCodes = [] ↔
      ∀ r ∈ reqs, exitCodes r = 0 := by
  rw [failed_procs, List.filter_eq_nil_iff]
  constructor
  · intro h r hr
    have := h (dl_wheel pyexe exitCodes r (wheel_cmd_opts lines))
      (by simpa [completed_procs] using ⟨r, hr, rfl⟩)
    simpa [dl_wheel] using this
  · intro h p hp
    simp only [completed_procs, List.mem_map] at hp
    obtain ⟨r, hr, rfl⟩ := hp
    simp [dl_wheel, h r hr]

/-- C2 `theorem`: the parallel fetch succeeds exactly when every
subprocess's exit code is zero, and when it fails its error payload is
exactly the non-empty list of failed processes — each a per-requirement
fetch with a non-zero exit code — rather than a single generic failure. -/
theorem fetch_packages_parallel_reports_failures (pyexe : String)
    (lines : List String) (reqs : List Requirement)
    (exitCodes : Requirement → Int) :
    (fetch_packages_parallel pyexe lines reqs exitCodes = Except.ok () ↔
      ∀ r ∈ reqs, exitCodes r = 0) ∧
    (∀ procs, fetch_packages_parallel pyexe lines reqs exitCodes =
        Except.error procs ↔
      (procs = failed_procs pyexe lines reqs exitCodes ∧ procs ≠ [])) ∧
    (∀ p, p ∈ failed_procs pyexe lines reqs exitCodes ↔
      (∃ r ∈ reqs, p = dl_wheel pyexe exitCodes r (wheel_cmd_opts lines)) ∧
        p.returncode ≠ 0) := by
  refine ⟨?_, ?_, mem_failed_procs pyexe lines reqs exitCodes⟩
  · rw [← failed_procs_eq_nil_iff pyexe lines reqs exitCodes]
    unfold fetch_packages_parallel
    split <;> simp_all
  · intro procs
    unfold fetch_packages_parallel
    split <;> simp_all [eq_comm]

/-- One subprocess per parsed requirement: evaluating the parallel fetch on
two concrete pinned requirements spawns exactly the two expected commands. -/
example :
    completed_procs "python3" [] [⟨"flask", "==2.0.1"⟩, ⟨"click", "==8.0.0"⟩]
      (fun _ => 0) =
    [⟨["python3", "-m", "pip", "wheel", "--no-deps", "flask==2.0.1"], 0⟩,
     ⟨["python3", "-m", "pip", "wheel", "--no-deps", "click==8.0.0"], 0⟩] := by
  decide

lemma wheel_cmd_opts_foldl_general (lines : List String)
    (acc : List String) :
    lines.foldl
      (fun acc l => if pyStartsWith l "--" then acc ++ pySplit l else acc) acc =
    acc ++ ((lines.filter (fun l => pyStartsWith l "--")).map pySplit).flatten := by
  induction lines generalizing acc with
  | nil => simp
  | cons l rest ih =>
    by_cases h : pyStartsWith l "--" = true <;>
      simp [h, ih, List.append_assoc]

/-- C3 `theorem`: the accumulated option list is the concatenation of the
space-split tokens of exactly the lines starting with `"--"`, in order; and
the parallel fetch spawns exactly one subprocess per parsed requirement
(same count, same order), whose command is the fixed
`[interpreter, "-m", "pip", "wheel", "--no-deps"]` prefix — containing the
no-dependencies flag — followed by the accumulated option list and then the
single token `name ++ specifier` of that requirement. -/
theorem one_subprocess_per_requirement (pyexe : String)
    (lines : List String) (reqs : List Requirement)
    (exitCodes : Requirement → Int) :
    wheel_cmd_opts lines =
      ((lines.filter (fun l => pyStartsWith l "--")).map pySplit).flatten ∧
    (completed_procs pyexe lines reqs exitCodes).length = reqs.length ∧
    completed_procs pyexe lines reqs exitCodes =
      reqs.map (fun r =>
        { args := [pyexe, "-m", "pip", "wheel", "--no-deps"] ++
            wheel_cmd_opts lines ++ [r.name ++ r.specifier],
          returncode := exitCodes r }) := by
  refine ⟨?_, ?_, rfl⟩
  · simpa using wheel_cmd_opts_foldl_general lines []
  · simp [completed_procs]

end ExtractWheels

namespace EntryPoints

/-! ### Entry-point installation (src/entry_points.py)

An extracted wheel directory is summarised by its path, the distribution
metadata `pkg_resources.find_distributions` would discover in it (`none`
when there is none), and the list of file names currently in its `bin/`
subdirectory (empty when `bin/` is absent; `os.makedirs(..., exist_ok=True)`
makes creating it idempotent).  A directory never holds two files of the
same name, so `binFiles` is kept duplicate-free by every write. -/

structure EntryPointSpec where
  key : String
  val : String
deriving DecidableEq, Repr

structure Distribution where
  key : String
  version : String
  console_scripts : List EntryPointSpec
deriving DecidableEq, Repr

structure ExtractedWhlDirectory where
  path : String
  distribution : Option Distribution
  binFiles : List String
deriving DecidableEq, Repr

/-- Python's `f.endswith(suffix)`: the suffix test on the underlying
character sequences. -/
def pyEndsWith (s suffix : String) : Bool :=
  decide (suffix.data <:+ s.data)

/-- Writing a file into a directory listing: creating it when absent,
overwriting in place when present. -/
def writeScript (files : List String) (f : String) : List String :=
  if f ∈ files then files else files ++ [f]

/-- The effect on `bin/` of `install_scripts.run()` (src/entry_points.py,
lines 20-38): one script file per console-script entry point, named after
the entry-point name. -/
def materializeScripts (files : List String) (names : List String) :
    List String :=
  names.foldl writeScript files

/-- `os.rename(fullname, fullname + ".py")`: the source name disappears and
the target name appears, silently replacing a pre-existing file of the
target name. -/
def renameOne (cur : List String) (f : String) : List String :=
  (cur.filter (fun g => g != f && g != f ++ ".py")) ++ [f ++ ".py"]

/-- One iteration of the rename loop (src/entry_points.py, lines 44-47):
a file already carrying the `.py` suffix is left alone, any other file is
renamed to carry it. -/
def renameStep (cur : List String) (f : String) : List String :=
  if pyEndsWith f ".py" then cur else renameOne cur f

/-- The whole rename loop: `os.listdir` takes one snapshot of `bin/` and the
loop runs `renameStep` over that snapshot. -/
def addPySuffixes (files : List String) : List String :=
  files.foldl renameStep files

/-- Embedding of `install_entry_points` (src/entry_points.py, lines 10-49):
fail when no distribution is discoverable in the directory, naming it;
otherwise materialize one script per declared console-script entry point
under `bin/`, rename every file of `bin/` lacking the `.py` suffix to carry
it, and return the list of entry-point names. -/
def install_entry_points (d : ExtractedWhlDirectory) :
    Except String (List String × ExtractedWhlDirectory) :=
  match d.distribution with
  | none =>
      Except.error
        ("Could not find in Python distribution in directory: " ++ d.path)
  | some distribution =>
      let entry_points := distribution.console_scripts
      let binAfterInstall :=
        materializeScripts d.binFiles (entry_points.map (fun ep => ep.key))
      let binFinal := addPySuffixes binAfterInstall
      Except.ok (entry_points.map (fun ep => ep.key),
        { d with binFiles := binFinal })

lemma pyEndsWith_append_py (x : String) :
    pyEndsWith (x ++ ".py") ".py" = true := by
  unfold pyEndsWith
  rw [decide_eq_true_eq, String.data_append]
  exact List.suffix_append x.data ".py".data

lemma append_py_ne_of_not_py {f g : String}
    (hg : pyEndsWith g ".py" = false) : f ++ ".py" ≠ g := by
  intro h
  rw [← h, pyEndsWith_append_py] at hg
  exact Bool.noConfusion hg

lemma append_py_inj {f g : String} (h : f ++ ".py" = g ++ ".py") : f = g := by
  have hd := congrArg String.data h
  rw [String.data_append, String.data_append] at hd
  exact String.ext (List.append_cancel_right hd)

lemma mem_renameStep_of_mem {cur : List String} {g f : String}
    (hg : g ∈ cur) (hne : g ≠ f) :
    g ∈ renameStep cur f := by
  unfold renameStep
  split
  · exact hg
  · unfold renameOne
    rw [List.mem_append]
    by_cases h2 : g = f ++ ".py"
    · right
      simp [h2]
    · left
      rw [List.mem_filter]
      exact ⟨hg, by simp [hne, h2]⟩

lemma all_py_after_addPySuffixes_aux :
    ∀ (todo cur : List String),
      (∀ f ∈ cur, pyEndsWith f ".py" = true ∨ f ∈ todo) →
      ∀ g ∈ todo.foldl renameStep cur, pyEndsWith g ".py" = true := by
  intro todo
  induction todo with
  | nil =>
    intro cur h g hg
    rcases h g hg with hpy | habs
    · exact hpy
    · cases habs
  | cons f rest ih =>
    intro cur h g hg
    rw [List.foldl_cons] at hg
    refine ih (renameStep cur f) ?_ g hg
    intro x hx
    unfold renameStep at hx
    split at hx
    · next hf =>
      rcases h x hx with hpy | hmem
      · exact Or.inl hpy
      · rcases List.mem_cons.mp hmem with rfl | hrest
        · exact Or.inl hf
        · exact Or.inr hrest
    · next hf =>
      unfold renameOne at hx
      rcases List.mem_append.mp hx with hx | hx
      · rw [List.mem_filter] at hx
        obtain ⟨hxcur, hxne⟩ := hx
        rcases h x hxcur with hpy | hmem
        · exact Or.inl hpy
        · rcases List.mem_cons.mp hmem with rfl | hrest
          · simp at hxne
          · exact Or.inr hrest
      · rw [List.mem_singleton] at hx
        subst hx
        exact Or.inl (pyEndsWith_append_py f)

/-- After the rename loop every file of `bin/` carries the `.py` suffix. -/
lemma all_py_after_addPySuffixes (files : List String) :
    ∀ g ∈ addPySuffixes files, pyEndsWith g ".py" = true :=
  all_py_after_addPySuffixes_aux files files (fun _ hf => Or.inr hf)

lemma mem_materializeScripts (names : List String) :
    ∀ (files : List String) (f : String), f ∈ files →
      f ∈ materializeScripts files names := by
  induction names with
  | nil => intro files f hf; exact hf
  | cons n rest ih =>
    intro files f hf
    rw [materializeScripts, List.foldl_cons]
    refine ih (writeScript files n) f ?_
    unfold writeScript
    split
    · exact hf
    · exact List.mem_append_left _ hf

lemma nodup_writeScript {files : List String} (h : files.Nodup)
    (n : String) : (writeScript files n).Nodup := by
  unfold writeScript
  split
  · exact h
  · next hn => simpa [List.nodup_append, hn] using h

lemma nodup_materializeScripts (names : List String) :
    ∀ (files : List String), files.Nodup →
      (materializeScripts files names).Nodup := by
  induction names with
  | nil => intro files h; exact h
  | cons n rest ih =>
    intro files h
    rw [materializeScripts, List.foldl_cons]
    exact ih (writeScript files n) (nodup_writeScript h n)

/-- The renamed copy of a tracked non-`.py` file survives the rest of the
rename loop: over a duplicate-free snapshot, once a file `f` lacking the
suffix is either still waiting in the snapshot (and present) or already
renamed (and its `.py` copy present), the `.py` copy is present at the
end. -/
lemma renamed_copy_mem_aux {f : String} (hpy : pyEndsWith f ".py" = false) :
    ∀ (todo cur : List String), todo.Nodup →
      ((f ∈ todo ∧ f ∈ cur) ∨ (f ∉ todo ∧ f ++ ".py" ∈ cur)) →
      f ++ ".py" ∈ todo.foldl renameStep cur := by
  intro todo
  induction todo with
  | nil =>
    intro cur _ h
    rcases h with ⟨habs, _⟩ | ⟨_, hmem⟩
    · cases habs
    · exact hmem
  | cons g rest ih =>
    intro cur hnd h
    rw [List.foldl_cons]
    have hndrest : rest.Nodup := hnd.of_cons
    rcases h with ⟨htodo, hcur⟩ | ⟨htodo, hcur⟩
    · by_cases hfg : f = g
      · subst hfg
        refine ih (renameStep cur f) hndrest (Or.inr ⟨?_, ?_⟩)
        · exact (List.nodup_cons.mp hnd).1
        · unfold renameStep
          rw [hpy]
          simp [renameOne]
      · have hfrest : f ∈ rest := by
          rcases List.mem_cons.mp htodo with rfl | hr
          · exact absurd rfl hfg
          · exact hr
        refine ih (renameStep cur g) hndrest (Or.inl ⟨hfrest, ?_⟩)
        unfold renameStep
        split
        · exact hcur
        · unfold renameOne
          rw [List.mem_append, List.mem_filter]
          left
          refine ⟨hcur, ?_⟩
          next hg =>
            have h2 : f ≠ g ++ ".py" := by
              intro he
              rw [he, pyEndsWith_append_py] at hpy
              exact Bool.noConfusion hpy
            simp [hfg, h2]
    · have hne : f ≠ g := by
        intro he
        exact htodo (he ▸ List.mem_cons_self g rest)
      refine ih (renameStep cur g) hndrest
        (Or.inr ⟨fun hr => htodo (List.mem_cons_of_mem g hr), ?_⟩)
      unfold renameStep
      split
      · exact hcur
      · next hg =>
        unfold renameOne
        rw [List.mem_append]
        by_cases h2 : f ++ ".py" = g ++ ".py"
        · right
          simp [h2]
        · left
          rw [List.mem_filter]
          have h3 : f ++ ".py" ≠ g :=
            append_py_ne_of_not_py (by simpa using hg)
          exact ⟨hcur, by simp [h2, h3]⟩

/-- Starting the loop on a duplicate-free snapshot, every file of the
snapshot lacking the `.py` suffix ends up present with the suffix added. -/
lemma renamed_copy_mem {files : List String} (hnd : files.Nodup)
    {f : String} (hf : f ∈ files) (hpy : pyEndsWith f ".py" = false) :
    f ++ ".py" ∈ addPySuffixes files :=
  renamed_copy_mem_aux hpy files files hnd (Or.inl ⟨hf, hf⟩)

/-- The final `bin/` listing a successful `install_entry_points` leaves
behind (the code's `binFinal`, named for reuse in proofs). -/
def installedBin (d : ExtractedWhlDirectory) (dist : Distribution) :
    List String :=
  addPySuffixes
    (materializeScripts d.binFiles
      (dist.console_scripts.map (fun ep => ep.key)))

lemma install_entry_points_eq_ok {d : ExtractedWhlDirectory}
    {dist : Distribution} (h : d.distribution = some dist) :
    install_entry_points d =
      Except.ok (dist.console_scripts.map (fun ep => ep.key),
        { d with binFiles := installedBin d dist }) := by
  simp [install_entry_points, installedBin, h]

/-- C4 `theorem`: on a directory holding one distribution's metadata,
`install_entry_points` returns exactly the declared console-script
entry-point names (in declaration order); afterwards every file name in the
`bin/` subdirectory ends with `.py`; and a second call on the resulting
directory returns the same name list. -/
theorem install_entry_points_returns_declared_names
    (d : ExtractedWhlDirectory) (dist : Distribution)
    (h : d.distribution = some dist) :
    ∃ d' : ExtractedWhlDirectory,
      install_entry_points d =
        Except.ok (dist.console_scripts.map (fun ep => ep.key), d') ∧
      (∀ f ∈ d'.binFiles, pyEndsWith f ".py" = true) ∧
      ∃ d'' : ExtractedWhlDirectory,
        install_entry_points d' =
          Except.ok (dist.console_scripts.map (fun ep => ep.key), d'') := by
  refine ⟨{ d with binFiles := installedBin d dist }, ?_, ?_, ?_⟩
  · exact install_entry_points_eq_ok h
  · intro f hf
    exact all_py_after_addPySuffixes _ f hf
  · exact ⟨_, install_entry_points_eq_ok h⟩

/-- A one-entry-point distribution in a directory whose `bin/` holds a
stale file, used to witness the entry-point claims at a concrete input. -/
def sampleDist : Distribution :=
  { key := "flask", version := "2.0.1",
    console_scripts := [{ key := "flask", val := "flask = flask.cli:main" }] }

def sampleDir : ExtractedWhlDirectory :=
  { path := "/work/extracted/flask",
    distribution := some sampleDist,
    binFiles := ["README"] }

/-- C4 `witness`: the theorem applied to the concrete sample directory. -/
theorem install_entry_points_returns_declared_names_witness :
    ∃ d' : ExtractedWhlDirectory,
      install_entry_points sampleDir =
        Except.ok (sampleDist.console_scripts.map (fun ep => ep.key), d') ∧
      (∀ f ∈ d'.binFiles, pyEndsWith f ".py" = true) ∧
      ∃ d'' : ExtractedWhlDirectory,
        install_entry_points d' =
          Except.ok (sampleDist.console_scripts.map (fun ep => ep.key), d'') :=
  install_entry_points_returns_declared_names sampleDir sampleDist rfl

/-- C6 `theorem`: on a directory in which no distribution metadata is
discoverable, `install_entry_points` fails with the error message naming
that directory, and returns no name list at all; the functional result
carries no changed directory state, so no filesystem write happens. -/
theorem install_entry_points_no_distribution (d : ExtractedWhlDirectory)
    (h : d.distribution = none) :
    install_entry_points d =
      Except.error
        ("Could not find in Python distribution in directory: " ++ d.path) ∧
    ∀ res, install_entry_points d ≠ Except.ok res := by
  constructor
  · simp [install_entry_points, h]
  · intro res
    simp [install_entry_points, h]

def noDistDir : ExtractedWhlDirectory :=
  { path := "/work/extracted/empty", distribution := none,
    binFiles := ["leftover"] }

/-- C6 `witness`: the theorem applied to a concrete metadata-less
directory. -/
theorem install_entry_points_no_distribution_witness :
    install_entry_points noDistDir =
      Except.error
        ("Could not find in Python distribution in directory: " ++
          noDistDir.path) ∧
    ∀ res, install_entry_points noDistDir ≠ Except.ok res :=
  install_entry_points_no_distribution noDistDir rfl

/-- C10 `theorem`: the suffix-renaming loop applies to every file present
in `bin/` at that point, including files that already existed before the
call and were not materialized by it: any pre-existing file lacking the
`.py` suffix is gone afterwards and its `.py`-suffixed copy is present. -/
theorem rename_applies_to_preexisting_files
    (d : ExtractedWhlDirectory) (dist : Distribution) (f : String)
    (h : d.distribution = some dist) (hnd : d.binFiles.Nodup)
    (hf : f ∈ d.binFiles) (hpy : pyEndsWith f ".py" = false) :
    ∃ names d', install_entry_points d = Except.ok (names, d') ∧
      f ∉ d'.binFiles ∧ f ++ ".py" ∈ d'.binFiles := by
  refine ⟨dist.console_scripts.map (fun ep => ep.key),
    { d with binFiles := installedBin d dist }, ?_, ?_, ?_⟩
  · simp [install_entry_points, installedBin, h]
  · intro hmem
    have := all_py_after_addPySuffixes _ f hmem
    rw [hpy] at this
    exact Bool.noConfusion this
  · exact renamed_copy_mem
      (nodup_materializeScripts _ d.binFiles hnd)
      (mem_materializeScripts _ d.binFiles f hf) hpy

/-- C10 `witness`: the theorem applied to the sample directory, whose
`bin/` already holds the stale file `"README"` before the call; afterwards
`"README"` is gone and `"README.py"` is present. -/
theorem rename_applies_to_preexisting_files_witness :
    pyEndsWith "README" ".py" = false ∧
    ∃ names d', install_entry_points sampleDir = Except.ok (names, d') ∧
      "README" ∉ d'.binFiles ∧ "README" ++ ".py" ∈ d'.binFiles :=
  ⟨by decide,
    rename_applies_to_preexisting_files sampleDir sampleDist "README" rfl
      (by decide) (by decide) (by decide)⟩

/-! ### Entry-point build-rule targets (src/entry_points.py, lines 52-76)

`_bazel_py_target_for_entry_point` fills a fixed `py_binary` template;
`pyBinaryDecl` is that template with its three placeholders substituted
(the grouping of the concatenation is immaterial and chosen so proofs can
cut the text at segment boundaries). -/

def pyBinaryDecl (rule entry_point pkg_name : String) : String :=
  "py_binary(\n    name = \"" ++ rule ++ "\",\n    " ++
    ("srcs = [\"bin/" ++ entry_point ++ ".py\"]") ++ ",\n    " ++
    ("deps = [\":" ++ pkg_name ++ "\"]") ++ ",\n    " ++
    "visibility = [\"//visibility:public\"]" ++ ",\n    " ++
    ("main = \"bin/" ++ entry_point ++ ".py\"") ++ ",\n)\n"

/-- Embedding of `_bazel_py_target_for_entry_point`: the target identifier
is `"bin-" ++ entry_point_name` when the entry-point name equals the
package name and the entry-point name itself otherwise. -/
def _bazel_py_target_for_entry_point (pkg_name entry_point_name : String) :
    String :=
  pyBinaryDecl
    (if entry_point_name = pkg_name then "bin-" ++ entry_point_name
     else entry_point_name)
    entry_point_name pkg_name

/-- Embedding of `entry_point_build_file_targets`: one declaration per
entry-point name, joined with newlines. -/
def entry_point_build_file_targets (pkg_name : String)
    (entry_point_names : List String) : String :=
  String.intercalate "\n"
    (entry_point_names.map (_bazel_py_target_for_entry_point pkg_name))

/-- The template text the code holds, checked against the embedding on a
concrete substitution. -/
example :
    _bazel_py_target_for_entry_point "flask" "tool" =
      "py_binary(\n    name = \"tool\",\n    srcs = [\"bin/tool.py\"],\n    deps = [\":flask\"],\n    visibility = [\"//visibility:public\"],\n    main = \"bin/tool.py\",\n)\n" := by
  decide

example :
    _bazel_py_target_for_entry_point "flask" "flask" =
      "py_binary(\n    name = \"bin-flask\",\n    srcs = [\"bin/flask.py\"],\n    deps = [\":flask\"],\n    visibility = [\"//visibility:public\"],\n    main = \"bin/flask.py\",\n)\n" := by
  decide

lemma pyBinaryDecl_rule_length_injective
    {r1 r2 entry_point pkg_name : String}
    (h : pyBinaryDecl r1 entry_point pkg_name =
      pyBinaryDecl r2 entry_point pkg_name) :
    r1.length = r2.length := by
  have := congrArg String.length h
  simp only [pyBinaryDecl, String.length_append] at this
  omega

lemma pyBinaryDecl_contains_srcs (rule entry_point pkg_name : String) :
    ("srcs = [\"bin/" ++ entry_point ++ ".py\"]").data <:+:
      (pyBinaryDecl rule entry_point pkg_name).data := by
  refine ⟨("py_binary(\n    name = \"" ++ rule ++ "\",\n    ").data,
    (",\n    " ++ ("deps = [\":" ++ pkg_name ++ "\"]") ++ ",\n    " ++
      "visibility = [\"//visibility:public\"]" ++ ",\n    " ++
      ("main = \"bin/" ++ entry_point ++ ".py\"") ++ ",\n)\n").data, ?_⟩
  simp [pyBinaryDecl, String.data_append, List.append_assoc]

lemma pyBinaryDecl_contains_main (rule entry_point pkg_name : String) :
    ("main = \"bin/" ++ entry_point ++ ".py\"").data <:+:
      (pyBinaryDecl rule entry_point pkg_name).data := by
  refine ⟨("py_binary(\n    name = \"" ++ rule ++ "\",\n    " ++
      ("srcs = [\"bin/" ++ entry_point ++ ".py\"]") ++ ",\n    " ++
      ("deps = [\":" ++ pkg_name ++ "\"]") ++ ",\n    " ++
      "visibility = [\"//visibility:public\"]" ++ ",\n    ").data,
    (",\n)\n").data, ?_⟩
  simp [pyBinaryDecl, String.data_append, List.append_assoc]

lemma pyBinaryDecl_contains_deps (rule entry_point pkg_name : String) :
    ("deps = [\":" ++ pkg_name ++ "\"]").data <:+:
      (pyBinaryDecl rule entry_point pkg_name).data := by
  refine ⟨("py_binary(\n    name = \"" ++ rule ++ "\",\n    " ++
      ("srcs = [\"bin/" ++ entry_point ++ ".py\"]") ++ ",\n    ").data,
    (",\n    " ++ "visibility = [\"//visibility:public\"]" ++ ",\n    " ++
      ("main = \"bin/" ++ entry_point ++ ".py\"") ++ ",\n)\n").data, ?_⟩
  simp [pyBinaryDecl, String.data_append, List.append_assoc]

lemma pyBinaryDecl_contains_visibility (rule entry_point pkg_name : String) :
    ("visibility = [\"//visibility:public\"]").data <:+:
      (pyBinaryDecl rule entry_point pkg_name).data := by
  refine ⟨("py_binary(\n    name = \"" ++ rule ++ "\",\n    " ++
      ("srcs = [\"bin/" ++ entry_point ++ ".py\"]") ++ ",\n    " ++
      ("deps = [\":" ++ pkg_name ++ "\"]") ++ ",\n    ").data,
    (",\n    " ++ ("main = \"bin/" ++ entry_point ++ ".py\"") ++
      ",\n)\n").data, ?_⟩
  simp [pyBinaryDecl, String.data_append, List.append_assoc]

/-- C5 `theorem`: the generated declaration uses the identifier
`"bin-" ++ name` exactly when the entry-point name equals the package name
and the unprefixed name exactly otherwise; in both cases its text contains
`srcs = ["bin/{name}.py"]` and `main = "bin/{name}.py"` (the script as
source and main), a dependency list holding exactly the package's library
target, and public visibility. -/
theorem entry_point_target_naming (pkg_name entry_point_name : String) :
    (_bazel_py_target_for_entry_point pkg_name entry_point_name =
        pyBinaryDecl ("bin-" ++ entry_point_name) entry_point_name pkg_name ↔
      entry_point_name = pkg_name) ∧
    (_bazel_py_target_for_entry_point pkg_name entry_point_name =
        pyBinaryDecl entry_point_name entry_point_name pkg_name ↔
      entry_point_name ≠ pkg_name) ∧
    ("srcs = [\"bin/" ++ entry_point_name ++ ".py\"]").data <:+:
      (_bazel_py_target_for_entry_point pkg_name entry_point_name).data ∧
    ("main = \"bin/" ++ entry_point_name ++ ".py\"").data <:+:
      (_bazel_py_target_for_entry_point pkg_name entry_point_name).data ∧
    ("deps = [\":" ++ pkg_name ++ "\"]").data <:+:
      (_bazel_py_target_for_entry_point pkg_name entry_point_name).data ∧
    ("visibility = [\"//visibility:public\"]").data <:+:
      (_bazel_py_target_for_entry_point pkg_name entry_point_name).data := by
  have h4 : ("bin-" : String).length = 4 := rfl
  have hlen : ∀ s : String, ("bin-" ++ s).length = s.length + 4 := by
    intro s
    rw [String.length_append, h4]
    omega
  refine ⟨?_, ?_, ?_, ?_, ?_, ?_⟩
  · constructor
    · intro h
      by_contra hne
      rw [_bazel_py_target_for_entry_point, if_neg hne] at h
      have := pyBinaryDecl_rule_length_injective h
      rw [hlen] at this
      omega
    · intro h
      rw [_bazel_py_target_for_entry_point, if_pos h]
  · constructor
    · intro h
      intro he
      rw [_bazel_py_target_for_entry_point, if_pos he] at h
      have := pyBinaryDecl_rule_length_injective h
      rw [hlen] at this
      omega
    · intro h
      rw [_bazel_py_target_for_entry_point, if_neg h]
  · exact pyBinaryDecl_contains_srcs _ _ _
  · exact pyBinaryDecl_contains_main _ _ _
  · exact pyBinaryDecl_contains_deps _ _ _
  · exact pyBinaryDecl_contains_visibility _ _ _

end EntryPoints

namespace ExtractWheels

/-! ### The command line and `main` (extract_wheels/__init__.py, lines 83-132)

`argparse` is embedded as: each optional argument is either given with a
value or absent; both `--requirements` and `--repo` carry `required=True`,
so parsing fails (argparse exits non-zero) when either is absent, and no
other validation is performed.  `main` is embedded as a function from the
parsed command line and an oracle for the outside world — the interpreter
path, the subprocess exit codes, the requirements-file contents, the
parsed requirements and the `*.whl` files the fetch leaves on disk, plus
the helper functions of `extract_wheels.lib` (not part of this repository's
two source files, so kept opaque) — to the run's observable outcome: the
fetch subprocess invocations, the written `requirements.bzl` contents, and
whether the process exits zero. -/

structure CmdLine where
  requirements : Option String
  repo : Option String
  precompiled : Bool
deriving DecidableEq, Repr

structure Args where
  requirements : String
  repo : String
  precompiled : Bool
deriving DecidableEq, Repr

/-- `parser.parse_args()`: both required options must be present; any value
given for `--repo` is accepted as-is (the `'@{REPO_NAME}'` format appears
only in the option's help text, never in a check). -/
def parse_args (cl : CmdLine) : Except String Args :=
  match cl.requirements, cl.repo with
  | some reqPath, some repoName =>
      Except.ok
        { requirements := reqPath, repo := repoName,
          precompiled := cl.precompiled }
  | none, _ =>
      Except.error "the following arguments are required: --requirements"
  | _, none =>
      Except.error "the following arguments are required: --repo"

structure World where
  sys_executable : String
  seq_exit : Int
  requirements_txt_lines : List String
  parsed_reqs : List Requirement
  req_exit : Requirement → Int
  whl_files : List String
  parse_extras : String → List (String × List String)
  extract_wheel : String → List (String × List String) → String
  generate_requirements_file_contents : String → List String → String

structure MainResult where
  calls : List (List String)
  requirements_bzl : Option String
  exitOk : Bool

/-- Embedding of `main`: parse the arguments; in precompiled mode run the
parallel fetch, otherwise run `pip wheel -r <requirements>` once via
`subprocess.check_output` (which raises on a non-zero exit, aborting the
run); only after a successful fetch are extras parsed, wheels globbed,
targets derived and `requirements.bzl` written. -/
def main_run (w : World) (cl : CmdLine) : MainResult :=
  match parse_args cl with
  | Except.error _ =>
      { calls := [], requirements_bzl := none, exitOk := false }
  | Except.ok args =>
      let wheel_cmd :=
        [w.sys_executable, "-m", "pip", "wheel", "-r", args.requirements]
      let calls :=
        if args.precompiled then
          (w.parsed_reqs.map (fun r => dl_wheel_cmd w.sys_executable r
            (wheel_cmd_opts w.requirements_txt_lines)))
        else [wheel_cmd]
      let fetchOk : Bool :=
        if args.precompiled then
          match fetch_packages_parallel w.sys_executable
            w.requirements_txt_lines w.parsed_reqs w.req_exit with
          | Except.ok _ => true
          | Except.error _ => false
        else w.seq_exit == 0
      if fetchOk then
        let extras := w.parse_extras args.requirements
        let targets := w.whl_files.map (fun whl =>
          "\"" ++ args.repo ++ w.extract_wheel whl extras ++ "\"")
        { calls := calls,
          requirements_bzl :=
            some (w.generate_requirements_file_contents args.repo targets),
          exitOk := true }
      else
        { calls := calls, requirements_bzl := none, exitOk := false }

/-- C7 `theorem`: in sequential mode the resolver is invoked exactly once —
the run's only subprocess call is `pip wheel -r <requirements file>` — and
when that subprocess exits non-zero the run fails (non-zero process exit)
with no retry (still exactly one call) and no `requirements.bzl` is
written. -/
theorem sequential_mode_single_invocation (w : World)
    (reqPath repoName : String) (hfail : w.seq_exit ≠ 0) :
    (main_run w
      { requirements := some reqPath, repo := some repoName,
        precompiled := false }).calls =
      [[w.sys_executable, "-m", "pip", "wheel", "-r", reqPath]] ∧
    (main_run w
      { requirements := some reqPath, repo := some repoName,
        precompiled := false }).exitOk = false ∧
    (main_run w
      { requirements := some reqPath, repo := some repoName,
        precompiled := false }).requirements_bzl = none := by
  simp [main_run, parse_args, hfail]

/-- A concrete world in which the sequential resolver subprocess fails. -/
def failingWorld : World :=
  { sys_executable := "python3", seq_exit := 1,
    requirements_txt_lines := [], parsed_reqs := [],
    req_exit := fun _ => 0, whl_files := [],
    parse_extras := fun _ => [],
    extract_wheel := fun _ _ => "",
    generate_requirements_file_contents := fun _ _ => "" }

/-- C7 `witness`: the theorem applied to the failing concrete world. -/
theorem sequential_mode_single_invocation_witness :
    (main_run failingWorld
      { requirements := some "requirements.txt", repo := some "@deps",
        precompiled := false }).calls =
      [[failingWorld.sys_executable, "-m", "pip", "wheel", "-r",
        "requirements.txt"]] ∧
    (main_run failingWorld
      { requirements := some "requirements.txt", repo := some "@deps",
        precompiled := false }).exitOk = false ∧
    (main_run failingWorld
      { requirements := some "requirements.txt", repo := some "@deps",
        precompiled := false }).requirements_bzl = none :=
  sequential_mode_single_invocation failingWorld "requirements.txt" "@deps"
    (by decide)

/-- A concrete world in which every subprocess succeeds. -/
def okWorld : World :=
  { sys_executable := "python3", seq_exit := 0,
    requirements_txt_lines := [], parsed_reqs := [],
    req_exit := fun _ => 0, whl_files := [],
    parse_extras := fun _ => [],
    extract_wheel := fun _ _ => "",
    generate_requirements_file_contents := fun _ _ => "" }

/-- C9 `counterexample`: a `--repo` value that does not start with the `@`
sigil is not rejected — the run proceeds to fetch (one subprocess call is
made) and exits zero. -/
theorem repo_sigil_not_validated :
    pyStartsWith "norepo" "@" = false ∧
    (main_run okWorld
      { requirements := some "requirements.txt", repo := some "norepo",
        precompiled := false }).exitOk = true ∧
    (main_run okWorld
      { requirements := some "requirements.txt", repo := some "norepo",
        precompiled := false }).calls ≠ [] := by
  refine ⟨by decide, ?_, ?_⟩ <;>
    simp [main_run, parse_args, okWorld]

/-- C9 `theorem` (amended): both `--requirements` and `--repo` are
required — parsing fails when either is absent — but the `--repo` value is
not validated at all: any string, whether or not it starts with the `@`
sigil, is accepted unchanged. -/
theorem parse_args_requires_both_validates_neither
    (reqPath repoName : String) (pre : Bool) :
    parse_args
        { requirements := some reqPath, repo := some repoName,
          precompiled := pre } =
      Except.ok
        { requirements := reqPath, repo := repoName, precompiled := pre } ∧
    (∀ repoOpt : Option String, ∃ msg,
      parse_args
          { requirements := none, repo := repoOpt, precompiled := pre } =
        Except.error msg) ∧
    (∃ msg,
      parse_args
          { requirements := some reqPath, repo := none,
            precompiled := pre } =
        Except.error msg) := by
  refine ⟨?_, ?_, ?_⟩
  · simp [parse_args]
  · intro repoOpt
    exact ⟨"the following arguments are required: --requirements",
      by simp [parse_args]⟩
  · exact ⟨"the following arguments are required: --repo",
      by simp [parse_args]⟩

end ExtractWheels
